import Mathlib

/-!
# Verification of the supernote container parser (`supernotelib/parser.py`)

This file gives a shallow embedding of the parser module of the
supernote-tool repository and proves/refutes the frozen claims about it.

Modelling conventions:
* a Python file opened in binary mode is a `List Nat` of byte values;
  `seek`/`read` clamp at end-of-file exactly as CPython does;
* a Python `dict` is an ordered association list `List (String × PVal)`
  (insertion order, unique keys); assignment to an existing key replaces
  the value in place, assignment to a fresh key appends at the end,
  `pop` removes the entry;
* Python exceptions become `Except PErr`;
* `int(...)` is modelled by `pyInt` (ASCII decimal with optional sign,
  surrounding whitespace and single underscores between digits);
* `bytes.decode()` is modelled by a strict UTF-8 decoder `utf8Decode`.
-/

set_option autoImplicit false
set_option maxRecDepth 8000

namespace Supernote

/-- A Python value stored in a parameter dictionary: a string, a list, or a
nested dictionary (layer mappings are dictionaries stored inside a list). -/
inductive PVal where
  | str : String → PVal
  | vlist : List PVal → PVal
  | dict : List (String × PVal) → PVal
  deriving Repr

/-- A Python dict as an ordered association list. -/
abbrev Params := List (String × PVal)

/-- Python truthiness of a parameter value (`if params.get(key):`):
the empty string, empty list and empty dict are falsy. -/
def truthy : PVal → Bool
  | .str s => !(s == "")
  | .vlist l => !l.isEmpty
  | .dict d => !d.isEmpty

/-- Python `d.get(k)` — first entry with the key, if any. -/
def dictGet (d : Params) (k : String) : Option PVal :=
  (d.find? (fun p => p.1 == k)).map (·.2)

/-- Python `d[k] = v` — replace in place if the key exists, otherwise append. -/
def dictSet (d : Params) (k : String) (v : PVal) : Params :=
  if d.any (fun p => p.1 == k) then
    d.map (fun p => if p.1 == k then (k, v) else p)
  else
    d ++ [(k, v)]

/-- Python `d.pop(k)` (the removal part) — drop the entry with the key. -/
def dictPop (d : Params) (k : String) : Params :=
  d.filter (fun p => !(p.1 == k))

/-- Characters with a special role in the `<key:value>` pattern
(the regex character classes are `[^:<>]`). -/
def isSpec (c : Char) : Bool := c == ':' || c == '<' || c == '>'

/-- Attempt to complete a match of `([^:<>]+):([^:<>]*)>` right after an
opening `<`.  Returns the key, the value, and the rest of the input. -/
def matchAt (l : List Char) : Option (String × String × List Char) :=
  if (l.takeWhile (fun c => !isSpec c)).isEmpty then none
  else
    match l.dropWhile (fun c => !isSpec c) with
    | ':' :: r2 =>
      (match r2.dropWhile (fun c => !isSpec c) with
       | '>' :: r4 => some (String.mk (l.takeWhile (fun c => !isSpec c)),
                            String.mk (r2.takeWhile (fun c => !isSpec c)), r4)
       | _ => none)
    | _ => none

/-- All non-overlapping matches of `<([^:<>]+):([^:<>]*)>` found
left-to-right (the behaviour of `re.finditer` for this pattern): at each
position, try to start a match at a `<`; on success continue right after
the match, on failure continue at the next character.  The recursion is
driven by a fuel counter so that it is structural; since every step
consumes at least one character, fuel `l.length` is always sufficient
(`matchAt_length`), so the fuel-exhausted branch is never taken from
`findMatches`. -/
def findMatchesAux : Nat → List Char → List (String × String)
  | 0, _ => []
  | _, [] => []
  | fuel + 1, c :: rest =>
    if c == '<' then
      match matchAt rest with
      | some (k, v, rest') => (k, v) :: findMatchesAux fuel rest'
      | none => findMatchesAux fuel rest
    else
      findMatchesAux fuel rest

def findMatches (l : List Char) : List (String × String) :=
  findMatchesAux l.length l

/-- One step of the duplicate-key fold in `_extract_parameters`:
`if params.get(key): (convert to / extend a list) else: params[key] = value`. -/
def extract_step (params : Params) (kv : String × String) : Params :=
  match dictGet params kv.1 with
  | some v =>
    if truthy v then
      match v with
      | .vlist vs => dictSet params kv.1 (.vlist (vs ++ [.str kv.2]))
      | _ => dictSet (dictPop params kv.1) kv.1 (.vlist [v, .str kv.2])
    else
      dictSet params kv.1 (.str kv.2)
  | none => dictSet params kv.1 (.str kv.2)

/-- Model of `SupernoteParser._extract_parameters`: scan the text for
`<key:value>` tokens and fold them into a dict. -/
def extract_parameters (metadata : String) : Params :=
  (findMatches metadata.data).foldl extract_step []

/-! ## Bytes, text decoding and `int()` -/

/-- A binary file: the sequence of its byte values. -/
abbrev File := List Nat

/-- Python `int.from_bytes(bs, 'little')`. -/
def leNat : List Nat → Nat
  | [] => 0
  | b :: r => b + 256 * leNat r

/-- Python `f.seek(pos); f.read(n)` — CPython clamps at end-of-file and never
fails on a short read. -/
def readAt (f : File) (pos n : Nat) : List Nat :=
  (f.drop pos).take n

/-- Is a byte a UTF-8 continuation byte? -/
def isContB (b : Nat) : Bool := 128 ≤ b && b < 192

/-- Strict UTF-8 decoding, the behaviour of `bytes.decode()`: rejects
truncated sequences, continuation-byte errors, overlong encodings,
surrogate code points and code points above `0x10FFFF`. -/
def utf8Decode : List Nat → Option (List Char)
  | [] => some []
  | b :: r =>
    if b < 128 then
      (utf8Decode r).map (fun cs => Char.ofNat b :: cs)
    else if b < 194 then
      none
    else if b < 224 then
      match r with
      | b2 :: r2 =>
        if isContB b2 then
          (utf8Decode r2).map (fun cs => Char.ofNat ((b - 192) * 64 + (b2 - 128)) :: cs)
        else none
      | [] => none
    else if b < 240 then
      match r with
      | b2 :: b3 :: r3 =>
        if isContB b2 && isContB b3 then
          let cp := (b - 224) * 4096 + (b2 - 128) * 64 + (b3 - 128)
          if 2048 ≤ cp && !(55296 ≤ cp && cp < 57344) then
            (utf8Decode r3).map (fun cs => Char.ofNat cp :: cs)
          else none
        else none
      | _ => none
    else if b < 245 then
      match r with
      | b2 :: b3 :: b4 :: r4 =>
        if isContB b2 && isContB b3 && isContB b4 then
          let cp := (b - 240) * 262144 + (b2 - 128) * 4096 + (b3 - 128) * 64 + (b4 - 128)
          if 65536 ≤ cp && cp < 1114112 then
            (utf8Decode r4).map (fun cs => Char.ofNat cp :: cs)
          else none
        else none
      | _ => none
    else
      none

/-- Python whitespace stripped by `int(str)`. -/
def isPyWs (c : Char) : Bool :=
  c == ' ' || c == '\t' || c == '\n' || c == '\x0d' ||
  c == '\x0b' || c == '\x0c'

/-- ASCII digit value. -/
def digToNat (c : Char) : Option Nat :=
  if c.isDigit then some (c.toNat - 48) else none

/-- Remaining digits of a Python integer literal: a single underscore is
allowed between two digits, nowhere else. -/
def pyDigitsRest (acc : Nat) : List Char → Option Nat
  | [] => some acc
  | '_' :: rest =>
    (match rest with
     | c :: r =>
       (match digToNat c with
        | some d => pyDigitsRest (acc * 10 + d) r
        | none => none)
     | [] => none)
  | c :: r =>
    (match digToNat c with
     | some d => pyDigitsRest (acc * 10 + d) r
     | none => none)

/-- Python `int(s)` on a string: surrounding whitespace, an optional
sign, then ASCII decimal digits. -/
def pyIntOfStr (s : String) : Option Int :=
  match (((s.data.dropWhile isPyWs).reverse.dropWhile isPyWs).reverse) with
  | '+' :: c :: r =>
    (match digToNat c with
     | some d => (pyDigitsRest d r).map Int.ofNat
     | none => none)
  | '-' :: c :: r =>
    (match digToNat c with
     | some d => (pyDigitsRest d r).map (fun n => -(Int.ofNat n))
     | none => none)
  | c :: r =>
    (match digToNat c with
     | some d => (pyDigitsRest d r).map Int.ofNat
     | none => none)
  | [] => none

/-- The failure modes of the parser, standing for the Python exception
classes (`UnsupportedFileFormat`, `UnicodeDecodeError`, `ValueError` /
`TypeError` from `int(...)`, `KeyError`, `OSError`, `IndexError`). -/
inductive PErr where
  | unsupported
  | badDecode
  | badInt
  | missingKey
  | ioError
  | indexError
  deriving DecidableEq, Repr

/-- Python `int(v)` on a dict value: only a string can convert; `int` of a list
or dict raises `TypeError`. -/
def pyInt : PVal → Except PErr Int
  | .str s =>
    (match pyIntOfStr s with
     | some n => .ok n
     | none => .error .badInt)
  | _ => .error .badInt

/-- Python `list(map(g, l))` where `g` may raise: the first failure propagates,
as in Python. -/
def mapE {α β : Type} (g : α → Except PErr β) : List α → Except PErr (List β)
  | [] => .ok []
  | a :: l =>
    match g a with
    | .error e => .error e
    | .ok b =>
      match mapE g l with
      | .error e => .error e
      | .ok bs => .ok (b :: bs)

/-! ## Block reading and the metadata block decoder -/

/-- Both `fileformat.LENGTH_FIELD_SIZE` and `fileformat.ADDRESS_SIZE` are
4 bytes. -/
def LENGTH_FIELD_SIZE : Nat := 4

def ADDRESS_SIZE : Nat := 4

/-- The raw bytes of the block at `address`: a 4-byte little-endian
length prefix followed by that many bytes (the read sequence of
`_parse_metadata_block` after the zero-address check; the second read
starts where the first one actually stopped).  A zero address yields no
bytes. -/
def read_block (f : File) (address : Nat) : List Nat :=
  if address = 0 then []
  else
    readAt f (address + (readAt f address LENGTH_FIELD_SIZE).length)
      (leNat (readAt f address LENGTH_FIELD_SIZE))

/-- Model of `SupernoteParser._parse_metadata_block`: return `{}` for address 0,
otherwise read the length-prefixed block, decode it as UTF-8 and extract
the parameters.  A negative address makes `seek` raise `OSError`. -/
def parse_metadata_block (f : File) (address : Int) : Except PErr Params :=
  if address = 0 then .ok []
  else if address < 0 then .error .ioError
  else
    match utf8Decode (read_block f address.toNat) with
    | some cs => .ok (extract_parameters (String.mk cs))
    | none => .error .badDecode

/-- A file-handle operation, for stating what `_parse_metadata_block`
does to the handle. -/
inductive FOp where
  | seek (target : Nat)
  | read (requested : Nat)
  deriving DecidableEq, Repr

/-- Model of `SupernoteParser._parse_metadata_block` again, with the file-handle
effects made explicit: the result, the final seek position, and the
trace of `seek`/`read` calls issued on the handle (the file's bytes are
never written).  `pos0` is the handle position on entry. -/
def parse_metadata_block_tr (f : File) (pos0 : Nat) (address : Int) :
    Except PErr Params × Nat × List FOp :=
  if address = 0 then (.ok [], pos0, [])
  else if address < 0 then (.error .ioError, pos0, [])
  else
    let lenBytes := readAt f address.toNat LENGTH_FIELD_SIZE
    let pos1 := address.toNat + lenBytes.length
    let contents := readAt f pos1 (leNat lenBytes)
    let trace := [FOp.seek address.toNat, FOp.read LENGTH_FIELD_SIZE,
                  FOp.read (leNat lenBytes)]
    match utf8Decode contents with
    | some cs => (.ok (extract_parameters (String.mk cs)), pos1 + contents.length, trace)
    | none => (.error .badDecode, pos1 + contents.length, trace)

/-! ## Variant rules -/

/-- Constant `SupernoteParser.SN_SIGNATURE`. -/
def SN_SIGNATURE : String := "SN_FILE_ASA_20190529"

/-- Constant `SupernoteXParser.SN_SIGNATURE`. -/
def SNX_SIGNATURE : String := "noteSN_FILE_VER_20200001"

/-- Constant `SupernoteXParser.LAYER_KEYS`. -/
def LAYER_KEYS : List String := ["MAINLAYER", "LAYER1", "LAYER2", "LAYER3", "BGLAYER"]

/-- Modelled from the spec: `fileformat.KEY_LAYERS`, the reserved
synthetic key (absent from `src/`, the `fileformat` module is not in the
sources) under which the parser stores the decoded layer list; chosen so
that it cannot collide with device-produced keys, which are uppercase
ASCII words. -/
def KEY_LAYERS : String := "__layers__"

/-- Model of `SupernoteParser._get_page_addresses`: read the single footer key
`PAGE`; a list converts element-wise, anything else converts as one
scalar (`int(None)` on a missing key raises `TypeError`, which we fold
into the conversion error). -/
def get_page_addresses_base (footer : Params) : Except PErr (List Int) :=
  match dictGet footer "PAGE" with
  | some (.vlist vs) => mapE pyInt vs
  | some v => (pyInt v).map (fun n => [n])
  | none => .error .badInt

/-- Python `str.startswith` on code points. -/
def pyStartswith (s pre : String) : Bool := pre.data.isPrefixOf s.data

/-- Model of `SupernoteXParser._get_page_addresses`: every footer key starting
with `PAGE`, in the mapping's insertion order (a dict holds each key
once, so filtering the entries is filtering the keys). -/
def get_page_addresses_x (footer : Params) : Except PErr (List Int) :=
  mapE (fun p => pyInt p.2) (footer.filter (fun p => pyStartswith p.1 "PAGE"))

/-- Model of `SupernoteXParser._get_layer_addresses`: the page keys that belong
to `LAYER_KEYS`, in the page mapping's insertion order, each converted
with `int`. -/
def get_layer_addresses (page_info : Params) : Except PErr (List Int) :=
  mapE (fun p => pyInt p.2) (page_info.filter (fun p => LAYER_KEYS.contains p.1))

/-- Model of `SupernoteParser._parse_page_block` (Base variant): exactly the
metadata block decoder. -/
def parse_page_block_base (f : File) (address : Int) : Except PErr Params :=
  parse_metadata_block f address

/-- Model of `SupernoteXParser._parse_layer_block`. -/
def parse_layer_block (f : File) (address : Int) : Except PErr Params :=
  parse_metadata_block f address

/-- Model of `SupernoteXParser._parse_page_block`: decode the block, decode every
layer block it references, and store the layer list in the page mapping
under `KEY_LAYERS`. -/
def parse_page_block_x (f : File) (address : Int) : Except PErr Params :=
  match parse_metadata_block f address with
  | .error e => .error e
  | .ok page_info =>
    match get_layer_addresses page_info with
    | .error e => .error e
    | .ok layer_addresses =>
      match mapE (fun a => (parse_layer_block f a).map PVal.dict) layer_addresses with
      | .error e => .error e
      | .ok layers => .ok (dictSet page_info KEY_LAYERS (.vlist layers))

/-! ## The container parsers and the dispatcher -/

/-- Structure `fileformat.SupernoteMetadata`, as far as the parser populates it. -/
structure SupernoteMetadata where
  signature : String
  header : Params
  footer : Params
  pages : List Params

/-- Model of `SupernoteParser._read_file_signature`: read `len(signature)` bytes
from the start of the file and decode them; a `UnicodeDecodeError` is
converted to `UnsupportedFileFormat`. -/
def read_file_signature (f : File) (sigLen : Nat) : Except PErr String :=
  match utf8Decode (readAt f 0 sigLen) with
  | some cs => .ok (String.mk cs)
  | none => .error .unsupported

/-- Model of `SupernoteParser.parse`, shared by both variants through the
overridable pieces `getAddrs` (page-address rule) and `parsePage`
(page-block rule): signature check, header at `len(signature)`, footer
at the address stored in the last 4 bytes, then one page block per
footer page address, in order. -/
def parse_with (sig : String) (getAddrs : Params → Except PErr (List Int))
    (parsePage : File → Int → Except PErr Params) (f : File) :
    Except PErr SupernoteMetadata :=
  match read_file_signature f sig.length with
  | .error e => .error e
  | .ok signature =>
    if signature = sig then
      match parse_metadata_block f (Int.ofNat sig.length) with
      | .error e => .error e
      | .ok header =>
        match parse_metadata_block f
            (Int.ofNat (leNat (readAt f (f.length - ADDRESS_SIZE) ADDRESS_SIZE))) with
        | .error e => .error e
        | .ok footer =>
          match getAddrs footer with
          | .error e => .error e
          | .ok page_addresses =>
            match mapE (parsePage f) page_addresses with
            | .error e => .error e
            | .ok pages => .ok ⟨signature, header, footer, pages⟩
    else .error .unsupported

/-- Model of `SupernoteParser.parse`. -/
def SupernoteParser_parse (f : File) : Except PErr SupernoteMetadata :=
  parse_with SN_SIGNATURE get_page_addresses_base parse_page_block_base f

/-- Model of `SupernoteXParser.parse` (inherits `parse` with the overridden
page-address and page-block rules). -/
def SupernoteXParser_parse (f : File) : Except PErr SupernoteMetadata :=
  parse_with SNX_SIGNATURE get_page_addresses_x parse_page_block_x f

/-- Model of `parse_metadata`: try the Base parser, fall through to the X-Series
parser only on `UnsupportedFileFormat`, and fail with
`UnsupportedFileFormat` if both refuse; any other exception propagates
unchanged. -/
def parse_metadata (f : File) : Except PErr SupernoteMetadata :=
  match SupernoteParser_parse f with
  | .ok metadata => .ok metadata
  | .error .unsupported =>
    (match SupernoteXParser_parse f with
     | .ok metadata => .ok metadata
     | .error .unsupported => .error .unsupported
     | .error e => .error e)
  | .error e => .error e

/-! ## Bitmap address resolution and notebook loading -/

/-- Modelled from the spec: `SupernoteMetadata.is_layer_supported` from
the missing `fileformat` module — true if and only if the page mapping
contains the reserved layers key with a non-empty list. -/
def is_layer_supported (metadata : SupernoteMetadata) (page_number : Nat) : Bool :=
  match dictGet (metadata.pages.getD page_number []) KEY_LAYERS with
  | some (.vlist ls) => !ls.isEmpty
  | _ => false

/-- Model of `_get_bitmap_address`: the `LAYERBITMAP` value of the first (MAIN)
layer when layers are supported, the page's `DATA` value otherwise. -/
def get_bitmap_address (metadata : SupernoteMetadata) (page_number : Nat) :
    Except PErr Int :=
  if page_number < metadata.pages.length then
    if is_layer_supported metadata page_number then
      match dictGet (metadata.pages.getD page_number []) KEY_LAYERS with
      | some (.vlist (PVal.dict layer0 :: _)) =>
        (match dictGet layer0 "LAYERBITMAP" with
         | some v => pyInt v
         | none => .error .missingKey)
      | some (.vlist (_ :: _)) => .error .badInt
      | _ => .error .missingKey
    else
      match dictGet (metadata.pages.getD page_number []) "DATA" with
      | some v => pyInt v
      | none => .error .missingKey
  else .error .indexError

/-- Modelled from the spec: `Notebook.get_total_pages` from the missing
`fileformat` module — the page count fixed by the metadata, the length
of its page sequence. -/
def get_total_pages (metadata : SupernoteMetadata) : Nat :=
  metadata.pages.length

/-- Model of `load_notebook` (with the metadata already parsed): for each page
index, resolve the bitmap address; address 0 leaves the content absent
(`None`), otherwise the length-prefixed block at the address is read and
stored as the page content. -/
def load_notebook (f : File) (metadata : SupernoteMetadata) :
    Except PErr (List (Option (List Nat))) :=
  mapE (fun i =>
    match get_bitmap_address metadata i with
    | .error e => .error e
    | .ok address =>
      if address = 0 then .ok none
      else if address < 0 then .error .ioError
      else .ok (some (read_block f address.toNat)))
    (List.range (get_total_pages metadata))

/-- A parse step that can only fail with an exception other than
`UnsupportedFileFormat`. -/
def noUnsup {α : Type} (r : Except PErr α) : Prop := r ≠ .error .unsupported

/-! ## Concrete container files used as test vectors -/

/-- ASCII text as bytes. -/
def strBytes (s : String) : List Nat := s.data.map Char.toNat

/-- A 4-byte little-endian length field. -/
def lenField4 (n : Nat) : List Nat :=
  [n % 256, n / 256 % 256, n / 65536 % 256, n / 16777216 % 256]

/-- A length-prefixed metadata block holding the given text. -/
def blockOf (s : String) : List Nat := lenField4 (strBytes s).length ++ strBytes s

/-- A minimal valid Base-variant file: header at 20, one page block at
40 with a null `DATA` address, footer at 52, footer address in the last
4 bytes. -/
def baseFile : File :=
  strBytes SN_SIGNATURE ++ blockOf "<FILE_TYPE:NOTE>" ++ blockOf "<DATA:0>" ++
    blockOf "<PAGE:40>" ++ [52, 0, 0, 0]

/-- A Base-variant file whose single page points at a 10-byte bitmap
block: bitmap block at 40, page block at 54, footer at 67. -/
def baseFile2 : File :=
  strBytes SN_SIGNATURE ++ blockOf "<FILE_TYPE:NOTE>" ++
    (lenField4 10 ++ [1, 2, 3, 4, 5, 6, 7, 8, 9, 10]) ++ blockOf "<DATA:40>" ++
    blockOf "<PAGE:54>" ++ [67, 0, 0, 0]

/-- A minimal valid X-Series file: header at 24, a layer block at 44 and
another at 63, a page block at 83 whose text names `LAYER1` before
`MAINLAYER`, footer at 112. -/
def xFile : File :=
  strBytes SNX_SIGNATURE ++ blockOf "<FILE_TYPE:NOTE>" ++ blockOf "<LAYERBITMAP:0>" ++
    blockOf "<LAYERTYPE:NOTE>" ++ blockOf "<LAYER1:63><MAINLAYER:44>" ++
    blockOf "<PAGE1:83>" ++ [112, 0, 0, 0]

/-- A Base-variant block whose length field claims 9 bytes while only 5
follow before end-of-file. -/
def shortFile : File := [0, 9, 0, 0, 0] ++ strBytes "<A:1>"

example : SupernoteParser_parse baseFile =
    .ok ⟨"SN_FILE_ASA_20190529", [("FILE_TYPE", .str "NOTE")], [("PAGE", .str "40")],
         [[("DATA", .str "0")]]⟩ := by rfl

example : SupernoteParser_parse baseFile2 =
    .ok ⟨"SN_FILE_ASA_20190529", [("FILE_TYPE", .str "NOTE")], [("PAGE", .str "54")],
         [[("DATA", .str "40")]]⟩ := by rfl

example : SupernoteXParser_parse xFile =
    .ok ⟨"noteSN_FILE_VER_20200001", [("FILE_TYPE", .str "NOTE")], [("PAGE1", .str "83")],
         [[("LAYER1", .str "63"), ("MAINLAYER", .str "44"),
           (KEY_LAYERS, .vlist [.dict [("LAYERTYPE", .str "NOTE")],
                                .dict [("LAYERBITMAP", .str "0")]])]]⟩ := by rfl

example : SupernoteParser_parse xFile = .error .unsupported := by rfl

example : SupernoteXParser_parse baseFile = .error .unsupported := by rfl

example :
    load_notebook baseFile
      ⟨"SN_FILE_ASA_20190529", [("FILE_TYPE", .str "NOTE")], [("PAGE", .str "40")],
       [[("DATA", .str "0")]]⟩ = .ok [none] := by rfl

example :
    load_notebook baseFile2
      ⟨"SN_FILE_ASA_20190529", [("FILE_TYPE", .str "NOTE")], [("PAGE", .str "54")],
       [[("DATA", .str "40")]]⟩ = .ok [some [1, 2, 3, 4, 5, 6, 7, 8, 9, 10]] := by rfl

/-! ## Helper lemmas -/

theorem matchAt_length {l : List Char} {k v : String} {r : List Char}
    (h : matchAt l = some (k, v, r)) : r.length < l.length + 1 := by
  unfold matchAt at h
  split at h
  · exact absurd h (by simp)
  · split at h
    · rename_i r2 heq1
      split at h
      · rename_i r4 heq2
        simp only [Option.some.injEq, Prod.mk.injEq] at h
        obtain ⟨-, -, hr⟩ := h
        subst hr
        have h2 : r2.length + 1 ≤ l.length := by
          have := (List.dropWhile_sublist (l := l) (fun c => !isSpec c)).length_le
          rw [heq1] at this
          simpa using this
        have h4 : r4.length + 1 ≤ r2.length := by
          have := (List.dropWhile_sublist (l := r2) (fun c => !isSpec c)).length_le
          rw [heq2] at this
          simpa using this
        omega
      · exact absurd h (by simp)
    · exact absurd h (by simp)

example : extract_parameters "<A:1><B:2><A:3>" =
    [("B", .str "2"), ("A", .vlist [.str "1", .str "3"])] := by rfl

example : extract_parameters "<A:1>" = [("A", .str "1")] := by rfl

example : extract_parameters "<A:><A:1>" = [("A", .str "1")] := by rfl

example : extract_parameters "" = [] := by rfl

example : extract_parameters "<<A:1>" = [("A", .str "1")] := by rfl

example : extract_parameters "<A<B:2>" = [("B", .str "2")] := by rfl

example : utf8Decode [60, 65, 58, 49, 62] = some "<A:1>".data := by rfl

example : utf8Decode [255] = none := by rfl

example : utf8Decode [194] = none := by rfl

example : pyIntOfStr "40" = some 40 := by rfl
example : pyIntOfStr " -7 " = some (-7) := by rfl
example : pyIntOfStr "1_0" = some 10 := by rfl
example : pyIntOfStr "" = none := by rfl
example : pyIntOfStr "4a" = none := by rfl

theorem mapE_length {α β : Type} {g : α → Except PErr β} :
    ∀ {l : List α} {bs : List β}, mapE g l = .ok bs → bs.length = l.length := by
  intro l
  induction l with
  | nil => intro bs h; simp [mapE] at h; simp [← h]
  | cons a t ih =>
    intro bs h
    unfold mapE at h
    rcases hg : g a with e | b <;> rw [hg] at h
    · simp at h
    · rcases hm : mapE g t with e | bs' <;> rw [hm] at h
      · simp at h
      · simp at h
        subst h
        simp [ih hm]

theorem mapE_getElem? {α β : Type} {g : α → Except PErr β} :
    ∀ {l : List α} {bs : List β}, mapE g l = .ok bs →
      ∀ {i : Nat} {a : α}, l[i]? = some a → ∃ b, bs[i]? = some b ∧ g a = .ok b := by
  intro l
  induction l with
  | nil => intro bs h i a ha; simp at ha
  | cons x t ih =>
    intro bs h i a ha
    unfold mapE at h
    rcases hg : g x with e | b <;> rw [hg] at h
    · simp at h
    · rcases hm : mapE g t with e | bs' <;> rw [hm] at h
      · simp at h
      · simp at h
        subst h
        match i with
        | 0 =>
          simp at ha
          subst ha
          exact ⟨b, by simp, hg⟩
        | i + 1 =>
          simp at ha ⊢
          exact ih hm ha

theorem dictGet_none_not_any {d : Params} {k : String} (h : dictGet d k = none) :
    d.any (fun p => p.1 == k) = false := by
  induction d with
  | nil => rfl
  | cons p t ih =>
    unfold dictGet at h ih
    rw [List.find?] at h
    cases hp : (p.1 == k) with
    | true => rw [hp] at h; simp at h
    | false =>
      rw [hp] at h
      simp only [List.any_cons, hp, Bool.false_or]
      exact ih h

theorem dictSet_of_not_mem {d : Params} {k : String} (v : PVal)
    (h : dictGet d k = none) : dictSet d k v = d ++ [(k, v)] := by
  unfold dictSet
  rw [dictGet_none_not_any h]
  simp

theorem dictPop_get_none (d : Params) (k : String) : dictGet (dictPop d k) k = none := by
  induction d with
  | nil => rfl
  | cons p t ih =>
    unfold dictPop at ih ⊢
    rw [List.filter]
    cases hp : (p.1 == k) with
    | true => simpa using ih
    | false =>
      simp only [Bool.not_false]
      unfold dictGet at ih ⊢
      rw [List.find?, hp]
      exact ih

theorem dictGet_dictSet_self (d : Params) (k : String) (v : PVal) :
    dictGet (dictSet d k v) k = some v := by
  unfold dictSet
  cases ha : d.any (fun p => p.1 == k) with
  | false =>
    simp only [Bool.false_eq_true, if_false]
    induction d with
    | nil => simp [dictGet, List.find?]
    | cons p t ih =>
      simp only [List.any_cons, Bool.or_eq_false_iff] at ha
      unfold dictGet
      rw [List.cons_append, List.find?, ha.1]
      exact ih ha.2
  | true =>
    simp only [if_true]
    induction d with
    | nil => simp at ha
    | cons p t ih =>
      simp only [List.any_cons, Bool.or_eq_true] at ha
      unfold dictGet
      rw [List.map_cons]
      cases hp : (p.1 == k) with
      | true => rw [if_pos (by simp [hp]), List.find?]; simp
      | false =>
        rw [if_neg (by simp [hp]), List.find?, hp]
        rcases ha with ha | ha
        · rw [hp] at ha; simp at ha
        · exact ih ha

theorem map_fst_filter_key (q : String → Bool) (d : Params) :
    (d.filter (fun p => q p.1)).map Prod.fst = (d.map Prod.fst).filter q := by
  induction d with
  | nil => rfl
  | cons p t ih =>
    rw [List.map_cons, List.filter, List.filter]
    cases hq : q p.1 with
    | true => rw [List.map_cons, ih]
    | false => exact ih

theorem filter_layer_map_set (d : Params) (v : PVal) :
    (d.map (fun p => if p.1 == KEY_LAYERS then (KEY_LAYERS, v) else p)).filter
        (fun p => LAYER_KEYS.contains p.1) =
      d.filter (fun p => LAYER_KEYS.contains p.1) := by
  induction d with
  | nil => rfl
  | cons p t ih =>
    rw [List.map_cons]
    cases hp : (p.1 == KEY_LAYERS) with
    | true =>
      rw [if_pos (by simp [hp])]
      have hpk : p.1 = KEY_LAYERS := by simpa using hp
      have h1 : LAYER_KEYS.contains (KEY_LAYERS, v).1 = false := by rfl
      have h2 : LAYER_KEYS.contains p.1 = false := by rw [hpk]; rfl
      rw [List.filter, List.filter, h1, h2]
      exact ih
    | false =>
      rw [if_neg (by simp [hp]), List.filter, List.filter]
      cases hq : LAYER_KEYS.contains p.1 with
      | true => simpa using ih
      | false => exact ih

theorem filter_layer_dictSet (d : Params) (v : PVal) :
    (dictSet d KEY_LAYERS v).filter (fun p => LAYER_KEYS.contains p.1) =
      d.filter (fun p => LAYER_KEYS.contains p.1) := by
  unfold dictSet
  cases ha : d.any (fun p => p.1 == KEY_LAYERS) with
  | false =>
    simp only [Bool.false_eq_true, if_false]
    rw [List.filter_append]
    have : List.filter (fun p => LAYER_KEYS.contains p.1) [(KEY_LAYERS, v)] = [] := by rfl
    rw [this, List.append_nil]
  | true =>
    simp only [if_true]
    exact filter_layer_map_set d v

theorem noUnsup_pmb (f : File) (a : Int) : noUnsup (parse_metadata_block f a) := by
  unfold noUnsup parse_metadata_block
  split
  · simp
  · split
    · simp
    · split <;> simp

theorem noUnsup_pyInt (v : PVal) : noUnsup (pyInt v) := by
  unfold noUnsup pyInt
  intro hc
  split at hc
  · split at hc <;> simp at hc
  · simp at hc

theorem noUnsup_map {α β : Type} {r : Except PErr α} (h : noUnsup r) (g : α → β) :
    noUnsup (r.map g) := by
  unfold noUnsup at h ⊢
  rcases r with e | a
  · simpa [Except.map] using h
  · simp [Except.map]

theorem noUnsup_mapE {α β : Type} {g : α → Except PErr β}
    (hg : ∀ a, noUnsup (g a)) : ∀ (l : List α), noUnsup (mapE g l) := by
  intro l
  induction l with
  | nil => unfold noUnsup mapE; simp
  | cons a t ih =>
    unfold noUnsup mapE
    rcases hga : g a with e | b
    · intro hc
      simp only [Except.error.injEq] at hc
      exact hg a (by rw [hga, hc])
    · rcases hm : mapE g t with e | bs
      · intro hc
        simp only [Except.error.injEq] at hc
        exact ih (by rw [hm, hc])
      · simp

theorem noUnsup_gpa_base (footer : Params) : noUnsup (get_page_addresses_base footer) := by
  unfold get_page_addresses_base
  rcases hget : dictGet footer "PAGE" with - | v
  · unfold noUnsup
    simp
  · rcases v with s | l | d
    · exact noUnsup_map (noUnsup_pyInt (.str s)) _
    · exact noUnsup_mapE noUnsup_pyInt l
    · exact noUnsup_map (noUnsup_pyInt (.dict d)) _

theorem noUnsup_gpa_x (footer : Params) : noUnsup (get_page_addresses_x footer) :=
  noUnsup_mapE (g := fun p : String × PVal => pyInt p.2)
    (fun p => noUnsup_pyInt p.2) _

theorem noUnsup_gla (page_info : Params) : noUnsup (get_layer_addresses page_info) :=
  noUnsup_mapE (g := fun p : String × PVal => pyInt p.2)
    (fun p => noUnsup_pyInt p.2) _

theorem noUnsup_ppb_base (f : File) (a : Int) : noUnsup (parse_page_block_base f a) :=
  noUnsup_pmb f a

theorem noUnsup_ppb_x (f : File) (a : Int) : noUnsup (parse_page_block_x f a) := by
  unfold noUnsup parse_page_block_x
  intro hc
  split at hc
  · simp only [Except.error.injEq] at hc
    subst hc
    exact noUnsup_pmb f a (by assumption)
  · split at hc
    · simp only [Except.error.injEq] at hc
      subst hc
      exact noUnsup_gla _ (by assumption)
    · split at hc
      · simp only [Except.error.injEq] at hc
        subst hc
        exact noUnsup_mapE (g := fun a => (parse_layer_block f a).map PVal.dict)
          (fun a' => noUnsup_map (noUnsup_pmb f a') PVal.dict) _ (by assumption)
      · exact Except.noConfusion hc

/-- Lemma: `parse` refuses a file as `UnsupportedFileFormat` exactly when the
signature read does not produce the expected signature text (the
signature bytes fail to decode, or decode to something else); no later
step raises that exception. -/
theorem parse_with_unsupported_iff (sig : String)
    (getAddrs : Params → Except PErr (List Int))
    (parsePage : File → Int → Except PErr Params)
    (hga : ∀ footer, noUnsup (getAddrs footer))
    (hpp : ∀ f a, noUnsup (parsePage f a)) (f : File) :
    parse_with sig getAddrs parsePage f = .error .unsupported ↔
      read_file_signature f sig.length ≠ .ok sig := by
  unfold parse_with
  split
  · rename_i e hs
    have he : e = PErr.unsupported := by
      unfold read_file_signature at hs
      split at hs
      · exact absurd hs (by simp)
      · simp only [Except.error.injEq] at hs
        exact hs.symm
    subst he
    simp [hs]
  · rename_i s hs
    by_cases hss : s = sig
    · subst hss
      rw [if_pos rfl]
      constructor
      · intro h
        exfalso
        split at h
        · simp only [Except.error.injEq] at h
          subst h
          exact noUnsup_pmb f _ (by assumption)
        · split at h
          · simp only [Except.error.injEq] at h
            subst h
            exact noUnsup_pmb f _ (by assumption)
          · split at h
            · simp only [Except.error.injEq] at h
              subst h
              exact hga _ (by assumption)
            · split at h
              · simp only [Except.error.injEq] at h
                subst h
                exact noUnsup_mapE (hpp f) _ (by assumption)
              · exact Except.noConfusion h
      · intro hc
        exact absurd hs hc
    · rw [if_neg hss]
      constructor
      · intro _
        rw [hs]
        intro hc
        simp only [Except.ok.injEq] at hc
        exact hss hc
      · intro _
        rfl

/-- Inverting a successful `parse`: the metadata's components are the
decoded header, footer and page blocks, with the pages produced from the
footer page addresses in order. -/
theorem parse_with_ok {sig : String}
    {getAddrs : Params → Except PErr (List Int)}
    {parsePage : File → Int → Except PErr Params}
    {f : File} {md : SupernoteMetadata}
    (h : parse_with sig getAddrs parsePage f = .ok md) :
    md.signature = sig
    ∧ read_file_signature f sig.length = .ok sig
    ∧ parse_metadata_block f (Int.ofNat sig.length) = .ok md.header
    ∧ parse_metadata_block f
        (Int.ofNat (leNat (readAt f (f.length - ADDRESS_SIZE) ADDRESS_SIZE))) = .ok md.footer
    ∧ ∃ addrs, getAddrs md.footer = .ok addrs ∧ mapE (parsePage f) addrs = .ok md.pages := by
  unfold parse_with at h
  split at h
  · exact absurd h (by simp)
  · rename_i s hs
    split at h
    · rename_i hss
      subst hss
      split at h
      · exact absurd h (by simp)
      · rename_i header hh
        split at h
        · exact absurd h (by simp)
        · rename_i footer hf
          split at h
          · exact absurd h (by simp)
          · rename_i addrs ha
            split at h
            · exact absurd h (by simp)
            · rename_i pages hp
              simp only [Except.ok.injEq] at h
              subst h
              exact ⟨rfl, hs, hh, hf, addrs, ha, hp⟩
    · exact absurd h (by simp)

/-! ## Claims -/

/-- C1, counterexample: the duplicate-key fold does not always produce a
list on the second occurrence of a key — when the first value is the
empty string the stored value is falsy, so the second occurrence simply
overwrites it: `<A:><A:1>` yields the scalar `{A: "1"}`, not
`{A: ["", "1"]}`. -/
theorem C1_extract_fold_counterexample :
    extract_parameters "<A:><A:1>" = [("A", PVal.str "1")]
    ∧ extract_parameters "<A:><A:1>" ≠ [("A", PVal.vlist [PVal.str "", PVal.str "1"])] := by
  refine ⟨rfl, ?_⟩
  intro h
  rw [show extract_parameters "<A:><A:1>" = [("A", PVal.str "1")] from rfl] at h
  simp at h

/-- C1, amended: the Parameter Extractor processes the non-overlapping
`<key:value>` matches left-to-right; a new key stores the scalar; a key
holding a non-empty scalar is converted to the two-element list
`[old, new]` (the entry moves to the end of the insertion order); a key
holding a (non-empty) list is appended to; but a key holding the empty
string — a falsy value — is simply overwritten by the new scalar.  The
spec's round-trip examples hold: `<A:1><B:2><A:3>` gives a dict with
`A ↦ ["1","3"]` and `B ↦ "2"`, and `<A:1>` gives the scalar `{A: "1"}`. -/
theorem C1_extract_fold :
    dictGet (extract_parameters "<A:1><B:2><A:3>") "A" =
      some (PVal.vlist [PVal.str "1", PVal.str "3"])
    ∧ dictGet (extract_parameters "<A:1><B:2><A:3>") "B" = some (PVal.str "2")
    ∧ extract_parameters "<A:1><B:2><A:3>" =
        [("B", PVal.str "2"), ("A", PVal.vlist [PVal.str "1", PVal.str "3"])]
    ∧ extract_parameters "<A:1>" = [("A", PVal.str "1")]
    ∧ extract_parameters "<A:><A:1>" = [("A", PVal.str "1")]
    ∧ (∀ s : String, extract_parameters s = (findMatches s.data).foldl extract_step [])
    ∧ (∀ p k v, dictGet p k = none → extract_step p (k, v) = p ++ [(k, PVal.str v)])
    ∧ (∀ p k v s0, dictGet p k = some (PVal.str s0) → s0 ≠ "" →
        extract_step p (k, v) = dictPop p k ++ [(k, PVal.vlist [PVal.str s0, PVal.str v])])
    ∧ (∀ p k v vs, dictGet p k = some (PVal.vlist vs) → vs ≠ [] →
        extract_step p (k, v) = dictSet p k (PVal.vlist (vs ++ [PVal.str v])))
    ∧ (∀ p k v, dictGet p k = some (PVal.str "") →
        extract_step p (k, v) = dictSet p k (PVal.str v)) := by
  refine ⟨rfl, rfl, rfl, rfl, rfl, fun s => rfl, ?_, ?_, ?_, ?_⟩
  · intro p k v h
    unfold extract_step
    rw [h]
    exact dictSet_of_not_mem _ h
  · intro p k v s0 h hne
    have hred : extract_step p (k, v) =
        if truthy (PVal.str s0) = true then
          dictSet (dictPop p k) k (PVal.vlist [PVal.str s0, PVal.str v])
        else dictSet p k (PVal.str v) := by
      unfold extract_step
      rw [h]
    rw [hred, if_pos (by simp [truthy, hne])]
    exact dictSet_of_not_mem _ (dictPop_get_none p k)
  · intro p k v vs h hne
    have hred : extract_step p (k, v) =
        if truthy (PVal.vlist vs) = true then
          dictSet p k (PVal.vlist (vs ++ [PVal.str v]))
        else dictSet p k (PVal.str v) := by
      unfold extract_step
      rw [h]
    rw [hred, if_pos (by simp [truthy, hne])]
  · intro p k v h
    have hred : extract_step p (k, v) =
        if truthy (PVal.str "") = true then
          dictSet (dictPop p k) k (PVal.vlist [PVal.str "", PVal.str v])
        else dictSet p k (PVal.str v) := by
      unfold extract_step
      rw [h]
    rw [hred, if_neg (by simp [truthy])]

theorem C1_extract_fold_witness :
    extract_step [("A", PVal.str "1")] ("A", "3") =
      dictPop [("A", PVal.str "1")] "A" ++
        [("A", PVal.vlist [PVal.str "1", PVal.str "3"])] :=
  C1_extract_fold.2.2.2.2.2.2.2.1 [("A", PVal.str "1")] "A" "3" "1" rfl (by decide)

/-- C2, counterexample: on the crafted X-Series file whose page block
text names `LAYER1` before `MAINLAYER`, the decoded layer list keeps
that textual (insertion) order — `LAYER1`'s block first — instead of the
fixed priority order `{MAINLAYER, LAYER1, ...}`, which would put
`MAINLAYER`'s block (the one holding `LAYERBITMAP`) first. -/
theorem C2_layer_order_counterexample :
    parse_page_block_x xFile 83 =
      .ok [("LAYER1", PVal.str "63"), ("MAINLAYER", PVal.str "44"),
           (KEY_LAYERS, PVal.vlist [PVal.dict [("LAYERTYPE", PVal.str "NOTE")],
                                    PVal.dict [("LAYERBITMAP", PVal.str "0")]])]
    ∧ PVal.vlist [PVal.dict [("LAYERTYPE", PVal.str "NOTE")],
                  PVal.dict [("LAYERBITMAP", PVal.str "0")]] ≠
        PVal.vlist [PVal.dict [("LAYERBITMAP", PVal.str "0")],
                    PVal.dict [("LAYERTYPE", PVal.str "NOTE")]] := by
  refine ⟨rfl, ?_⟩
  intro h
  simp at h

/-- C2, amended: `_get_layer_addresses` keeps the order in which the
layer keys occur in the decoded page mapping (its insertion order),
restricted to the keys of `LAYER_KEYS`; it does not reorder them into
the fixed priority order.  The layer list of `_parse_page_block` follows
that same order, as the crafted file shows. -/
theorem C2_layer_order :
    (∀ page_info : Params,
        (page_info.filter (fun p => LAYER_KEYS.contains p.1)).map Prod.fst =
          (page_info.map Prod.fst).filter (fun k => LAYER_KEYS.contains k))
    ∧ (∀ page_info addrs, get_layer_addresses page_info = .ok addrs →
        addrs.length = (page_info.filter (fun p => LAYER_KEYS.contains p.1)).length
        ∧ ∀ (i : Nat) (p : String × PVal),
            (page_info.filter (fun p => LAYER_KEYS.contains p.1))[i]? = some p →
            ∃ a, addrs[i]? = some a ∧ pyInt p.2 = .ok a)
    ∧ parse_page_block_x xFile 83 =
        .ok [("LAYER1", PVal.str "63"), ("MAINLAYER", PVal.str "44"),
             (KEY_LAYERS, PVal.vlist [PVal.dict [("LAYERTYPE", PVal.str "NOTE")],
                                      PVal.dict [("LAYERBITMAP", PVal.str "0")]])] := by
  refine ⟨fun page_info => map_fst_filter_key _ page_info, ?_, rfl⟩
  intro page_info addrs h
  unfold get_layer_addresses at h
  exact ⟨mapE_length h, fun i p hp => mapE_getElem? h hp⟩

theorem C2_layer_order_witness :
    ([(63 : Int), 44]).length =
      ([("LAYER1", PVal.str "63"), ("MAINLAYER", PVal.str "44")].filter
        (fun p => LAYER_KEYS.contains p.1)).length :=
  (C2_layer_order.2.1 [("LAYER1", PVal.str "63"), ("MAINLAYER", PVal.str "44")]
    [63, 44] rfl).1

/-- C9: the Metadata Block Decoder called with address 0 returns the
empty mapping at once, leaving the handle position unchanged and issuing
no `seek` or `read` on the source (whose bytes are in any case never
written). -/
theorem C9_null_address_frame (f : File) (pos0 : Nat) :
    parse_metadata_block_tr f pos0 0 = (.ok [], pos0, [])
    ∧ parse_metadata_block f 0 = .ok [] :=
  ⟨rfl, rfl⟩

/-- C10: every page mapping produced by the X-Series page-block parser
contains the synthetic `KEY_LAYERS` key bound to a list; when the page
block has no layer-address keys at all, that list is empty.  In
particular a null page address yields exactly `{KEY_LAYERS: []}`. -/
theorem C10_layers_key_always_present (f : File) (address : Int) (page : Params)
    (h : parse_page_block_x f address = .ok page) :
    (∃ ls, dictGet page KEY_LAYERS = some (PVal.vlist ls)
        ∧ (page.filter (fun p => LAYER_KEYS.contains p.1) = [] → ls = []))
    ∧ ∀ f' : File, parse_page_block_x f' 0 = .ok [(KEY_LAYERS, PVal.vlist [])] := by
  refine ⟨?_, fun f' => rfl⟩
  unfold parse_page_block_x at h
  split at h
  · exact absurd h (by simp)
  · rename_i pi hpi
    split at h
    · exact absurd h (by simp)
    · rename_i la hla
      split at h
      · exact absurd h (by simp)
      · rename_i layers hlayers
        simp only [Except.ok.injEq] at h
        subst h
        refine ⟨layers, dictGet_dictSet_self _ _ _, ?_⟩
        intro hfil
        rw [filter_layer_dictSet] at hfil
        unfold get_layer_addresses at hla
        rw [hfil] at hla
        have hla0 : la = [] := by
          rw [show mapE (fun p : String × PVal => pyInt p.2) [] = .ok [] from rfl] at hla
          simpa using hla.symm
        subst hla0
        rw [show mapE (fun a => (parse_layer_block f a).map PVal.dict) [] = .ok []
          from rfl] at hlayers
        simpa using hlayers.symm

theorem C10_layers_key_witness :
    ∃ ls, dictGet [("DATA", PVal.str "0"), (KEY_LAYERS, PVal.vlist [])] KEY_LAYERS =
        some (PVal.vlist ls)
      ∧ ([("DATA", PVal.str "0"), (KEY_LAYERS, PVal.vlist [])].filter
          (fun p => LAYER_KEYS.contains p.1) = [] → ls = []) :=
  (C10_layers_key_always_present ([0] ++ blockOf "<DATA:0>") 1
    [("DATA", PVal.str "0"), (KEY_LAYERS, PVal.vlist [])] (by rfl)).1

/-- C3: `parse_metadata` tries the Base parser, then the X-Series
parser, in that fixed order; a successful Base parse wins immediately; a
Base failure other than `UnsupportedFileFormat` propagates without
trying the X-Series parser; on a Base `UnsupportedFileFormat` the result
is exactly the X-Series parser's result (so two `UnsupportedFileFormat`
refusals give `UnsupportedFileFormat`); and each parser fails with
`UnsupportedFileFormat` exactly when its signature read does not produce
its signature text — no step after a successful signature check raises
that exception. -/
theorem C3_dispatcher (f : File) :
    (∀ md, SupernoteParser_parse f = .ok md → parse_metadata f = .ok md)
    ∧ (∀ e, SupernoteParser_parse f = .error e → e ≠ .unsupported →
        parse_metadata f = .error e)
    ∧ (SupernoteParser_parse f = .error .unsupported →
        parse_metadata f = SupernoteXParser_parse f)
    ∧ (SupernoteParser_parse f = .error .unsupported →
        SupernoteXParser_parse f = .error .unsupported →
        parse_metadata f = .error .unsupported)
    ∧ (SupernoteParser_parse f = .error .unsupported ↔
        read_file_signature f SN_SIGNATURE.length ≠ .ok SN_SIGNATURE)
    ∧ (SupernoteXParser_parse f = .error .unsupported ↔
        read_file_signature f SNX_SIGNATURE.length ≠ .ok SNX_SIGNATURE) := by
  refine ⟨?_, ?_, ?_, ?_, ?_, ?_⟩
  · intro md h
    unfold parse_metadata
    rw [h]
  · intro e h hne
    unfold parse_metadata
    rw [h]
    cases e <;> first | exact absurd rfl hne | rfl
  · intro h
    unfold parse_metadata
    rw [h]
    rcases hx : SupernoteXParser_parse f with e | md
    · cases e <;> rfl
    · rfl
  · intro h hx
    unfold parse_metadata
    rw [h, hx]
  · unfold SupernoteParser_parse
    exact parse_with_unsupported_iff SN_SIGNATURE get_page_addresses_base
      parse_page_block_base noUnsup_gpa_base noUnsup_ppb_base f
  · unfold SupernoteXParser_parse
    exact parse_with_unsupported_iff SNX_SIGNATURE get_page_addresses_x
      parse_page_block_x noUnsup_gpa_x noUnsup_ppb_x f

theorem C3_dispatcher_witness : parse_metadata xFile = SupernoteXParser_parse xFile :=
  (C3_dispatcher xFile).2.2.1 (by rfl)

/-- C4, counterexample: on a block whose length prefix runs past
end-of-file, `_parse_metadata_block` raises nothing — the short read is
silent (CPython `read` clamps at end-of-file), the 5 available bytes are
decoded and parsed, and the decoder returns them as a successful
mapping. -/
theorem C4_short_read_counterexample :
    shortFile.length = 10
    ∧ leNat (readAt shortFile 1 LENGTH_FIELD_SIZE) = 9
    ∧ 1 + LENGTH_FIELD_SIZE + leNat (readAt shortFile 1 LENGTH_FIELD_SIZE) >
        shortFile.length
    ∧ parse_metadata_block shortFile 1 = .ok [("A", PVal.str "1")]
    ∧ (read_block shortFile 1).length = 5 :=
  ⟨rfl, rfl, by decide, rfl, rfl⟩

/-- C4, amended: when the source cannot supply `4 + block_length` bytes
after a non-zero address, the block read silently returns the available
shorter byte sequence — its length is the minimum of the announced
length and what remains of the file — and parsing proceeds on it; no
I/O error is raised, and the only failure the decoder can produce at a
positive address is a text-decoding error. -/
theorem C4_short_read (f : File) (a : Nat) (h0 : 0 < a)
    (h4 : a + LENGTH_FIELD_SIZE ≤ f.length) :
    (read_block f a).length =
      min (leNat (readAt f a LENGTH_FIELD_SIZE)) (f.length - (a + LENGTH_FIELD_SIZE))
    ∧ (∀ e, parse_metadata_block f (Int.ofNat a) = .error e → e = .badDecode)
    ∧ (∀ cs, utf8Decode (read_block f a) = some cs →
        parse_metadata_block f (Int.ofNat a) = .ok (extract_parameters (String.mk cs))) := by
  have hlen4 : (readAt f a LENGTH_FIELD_SIZE).length = LENGTH_FIELD_SIZE := by
    unfold readAt
    rw [List.length_take, List.length_drop]
    unfold LENGTH_FIELD_SIZE at h4 ⊢
    omega
  have hne0 : ¬(Int.ofNat a = 0) := by
    simp only [Int.ofNat_eq_coe, ne_eq]
    omega
  have hnneg : ¬((Int.ofNat a : Int) < 0) := by
    simp
  refine ⟨?_, ?_, ?_⟩
  · unfold read_block
    rw [if_neg (by omega), hlen4]
    unfold readAt
    rw [List.length_take, List.length_drop]
  · intro e he
    unfold parse_metadata_block at he
    rw [if_neg hne0, if_neg hnneg] at he
    split at he
    · exact absurd he (by simp)
    · rename_i hdec
      simp only [Except.error.injEq] at he
      exact he.symm
  · intro cs hcs
    unfold parse_metadata_block
    rw [if_neg hne0, if_neg hnneg]
    rw [show (Int.ofNat a).toNat = a from rfl]
    rw [hcs]

theorem C4_short_read_witness :
    (read_block shortFile 1).length =
      min (leNat (readAt shortFile 1 LENGTH_FIELD_SIZE))
        (shortFile.length - (1 + LENGTH_FIELD_SIZE)) :=
  (C4_short_read shortFile 1 (by decide) (by decide)).1

/-- C5: the Base variant's page-address rule reads the single footer key
`PAGE` — element-wise integer conversion preserving order for a list
value, a singleton for a scalar value — and a successful Base parse has
exactly one decoded page block per extracted address, in the same
order. -/
theorem C5_base_page_addresses :
    (∀ footer vs addrs, dictGet footer "PAGE" = some (PVal.vlist vs) →
        mapE pyInt vs = .ok addrs → get_page_addresses_base footer = .ok addrs)
    ∧ (∀ footer s n, dictGet footer "PAGE" = some (PVal.str s) →
        pyInt (PVal.str s) = .ok n → get_page_addresses_base footer = .ok [n])
    ∧ (∀ f md, SupernoteParser_parse f = .ok md →
        ∃ addrs, get_page_addresses_base md.footer = .ok addrs
          ∧ mapE (parse_page_block_base f) addrs = .ok md.pages
          ∧ md.pages.length = addrs.length) := by
  refine ⟨?_, ?_, ?_⟩
  · intro footer vs addrs h hmap
    unfold get_page_addresses_base
    rw [h]
    exact hmap
  · intro footer s n h hint
    have hred : get_page_addresses_base footer = (pyInt (PVal.str s)).map (fun n => [n]) := by
      unfold get_page_addresses_base
      rw [h]
    rw [hred, hint]
    rfl
  · intro f md h
    unfold SupernoteParser_parse at h
    obtain ⟨-, -, -, -, addrs, ha, hp⟩ := parse_with_ok h
    exact ⟨addrs, ha, hp, mapE_length hp⟩

theorem C5_base_page_addresses_witness :
    ∃ addrs, get_page_addresses_base [("PAGE", PVal.str "40")] = .ok addrs
      ∧ mapE (parse_page_block_base baseFile) addrs = .ok [[("DATA", PVal.str "0")]]
      ∧ ([[("DATA", PVal.str "0")]] : List Params).length = addrs.length :=
  C5_base_page_addresses.2.2 baseFile
    ⟨"SN_FILE_ASA_20190529", [("FILE_TYPE", PVal.str "NOTE")], [("PAGE", PVal.str "40")],
     [[("DATA", PVal.str "0")]]⟩ (by rfl)

/-- C6: the X-Series page-address rule collects exactly the footer keys
that start with `PAGE`, in the footer mapping's insertion order, each
value converted with `int`, and a successful X-Series parse has as many
pages as there are such keys (one decoded page block per address, in
order). -/
theorem C6_x_page_addresses :
    (∀ footer : Params,
        (footer.filter (fun p => pyStartswith p.1 "PAGE")).map Prod.fst =
          (footer.map Prod.fst).filter (fun k => pyStartswith k "PAGE"))
    ∧ (∀ footer addrs, get_page_addresses_x footer = .ok addrs →
        addrs.length = ((footer.map Prod.fst).filter (fun k => pyStartswith k "PAGE")).length
        ∧ ∀ (i : Nat) (p : String × PVal),
            (footer.filter (fun p => pyStartswith p.1 "PAGE"))[i]? = some p →
            ∃ a, addrs[i]? = some a ∧ pyInt p.2 = .ok a)
    ∧ (∀ f md, SupernoteXParser_parse f = .ok md →
        ∃ addrs, get_page_addresses_x md.footer = .ok addrs
          ∧ mapE (parse_page_block_x f) addrs = .ok md.pages
          ∧ md.pages.length = addrs.length
          ∧ md.pages.length =
              ((md.footer.map Prod.fst).filter (fun k => pyStartswith k "PAGE")).length) := by
  refine ⟨?_, ?_, ?_⟩
  · intro footer
    exact map_fst_filter_key (fun k => pyStartswith k "PAGE") footer
  · intro footer addrs h
    unfold get_page_addresses_x at h
    refine ⟨?_, fun i p hp => mapE_getElem? h hp⟩
    rw [mapE_length h, ← map_fst_filter_key (fun k => pyStartswith k "PAGE") footer,
      List.length_map]
  · intro f md h
    unfold SupernoteXParser_parse at h
    obtain ⟨-, -, -, -, addrs, ha, hp⟩ := parse_with_ok h
    have hl : addrs.length =
        ((md.footer.map Prod.fst).filter (fun k => pyStartswith k "PAGE")).length := by
      unfold get_page_addresses_x at ha
      rw [mapE_length ha, ← map_fst_filter_key (fun k => pyStartswith k "PAGE") md.footer,
        List.length_map]
    exact ⟨addrs, ha, hp, mapE_length hp, (mapE_length hp).trans hl⟩

theorem C6_x_page_addresses_witness :
    ∃ addrs, get_page_addresses_x [("PAGE1", PVal.str "83")] = .ok addrs
      ∧ mapE (parse_page_block_x xFile) addrs =
          .ok [[("LAYER1", PVal.str "63"), ("MAINLAYER", PVal.str "44"),
                (KEY_LAYERS, PVal.vlist [PVal.dict [("LAYERTYPE", PVal.str "NOTE")],
                                         PVal.dict [("LAYERBITMAP", PVal.str "0")]])]]
      ∧ ([[("LAYER1", PVal.str "63"), ("MAINLAYER", PVal.str "44"),
           (KEY_LAYERS, PVal.vlist [PVal.dict [("LAYERTYPE", PVal.str "NOTE")],
                                    PVal.dict [("LAYERBITMAP", PVal.str "0")]])]] :
          List Params).length = addrs.length
      ∧ ([[("LAYER1", PVal.str "63"), ("MAINLAYER", PVal.str "44"),
           (KEY_LAYERS, PVal.vlist [PVal.dict [("LAYERTYPE", PVal.str "NOTE")],
                                    PVal.dict [("LAYERBITMAP", PVal.str "0")]])]] :
          List Params).length =
          (([("PAGE1", PVal.str "83")].map Prod.fst).filter
            (fun k => pyStartswith k "PAGE")).length :=
  C6_x_page_addresses.2.2 xFile
    ⟨"noteSN_FILE_VER_20200001", [("FILE_TYPE", PVal.str "NOTE")], [("PAGE1", PVal.str "83")],
     [[("LAYER1", PVal.str "63"), ("MAINLAYER", PVal.str "44"),
       (KEY_LAYERS, PVal.vlist [PVal.dict [("LAYERTYPE", PVal.str "NOTE")],
                                PVal.dict [("LAYERBITMAP", PVal.str "0")]])]]⟩ (by rfl)

/-- A successful bitmap-address resolution implies the page index is in
range (an out-of-range index raises `IndexError`). -/
theorem gba_ok_lt {md : SupernoteMetadata} {i : Nat} {a : Int}
    (h : get_bitmap_address md i = .ok a) : i < md.pages.length := by
  unfold get_bitmap_address at h
  by_cases hi : i < md.pages.length
  · exact hi
  · rw [if_neg hi] at h
    exact absurd h (by simp)

/-- C7: for a page index in range, the Bitmap Address Resolver returns
the integer value of `LAYERBITMAP` of the first (index-0) layer mapping
when the page carries a non-empty layer list, and the integer value of
the page's `DATA` key otherwise; in each branch it fails when the
expected key is absent. -/
theorem C7_bitmap_resolver (md : SupernoteMetadata) (n : Nat) (page : Params)
    (h : md.pages[n]? = some page) :
    (∀ layer0 rest,
        dictGet page KEY_LAYERS = some (PVal.vlist (PVal.dict layer0 :: rest)) →
        (∀ v, dictGet layer0 "LAYERBITMAP" = some v → get_bitmap_address md n = pyInt v)
        ∧ (dictGet layer0 "LAYERBITMAP" = none →
            get_bitmap_address md n = .error .missingKey))
    ∧ (is_layer_supported md n = false →
        (∀ v, dictGet page "DATA" = some v → get_bitmap_address md n = pyInt v)
        ∧ (dictGet page "DATA" = none → get_bitmap_address md n = .error .missingKey)) := by
  have hn : n < md.pages.length := by
    by_contra hc
    rw [List.getElem?_eq_none (by omega)] at h
    exact Option.noConfusion h
  have hgd : md.pages.getD n [] = page := by
    unfold List.getD
    rw [List.get?_eq_getElem?, h]
    rfl
  constructor
  · intro layer0 rest hl
    have hsupp : is_layer_supported md n = true := by
      unfold is_layer_supported
      rw [hgd, hl]
      rfl
    have hred : get_bitmap_address md n =
        (match dictGet layer0 "LAYERBITMAP" with
         | some v => pyInt v
         | none => .error .missingKey) := by
      unfold get_bitmap_address
      rw [if_pos hn, if_pos hsupp, hgd, hl]
    constructor
    · intro v hv
      rw [hred, hv]
    · intro hnone
      rw [hred, hnone]
  · intro hns
    have hred : get_bitmap_address md n =
        (match dictGet page "DATA" with
         | some v => pyInt v
         | none => .error .missingKey) := by
      unfold get_bitmap_address
      rw [if_pos hn, if_neg (by simp [hns]), hgd]
    constructor
    · intro v hv
      rw [hred, hv]
    · intro hnone
      rw [hred, hnone]

theorem C7_bitmap_resolver_witness :
    get_bitmap_address ⟨"", [], [], [[("DATA", PVal.str "7")]]⟩ 0 = .ok 7 := by
  have h := ((C7_bitmap_resolver ⟨"", [], [], [[("DATA", PVal.str "7")]]⟩ 0
    [("DATA", PVal.str "7")] rfl).2 rfl).1 (PVal.str "7") rfl
  rw [h]
  rfl

/-- C8: a successful `load_notebook` produces exactly one entry per
metadata page — the count is `get_total_pages`, fixed by the metadata
and independent of the file — where a page whose resolved bitmap
address is 0 keeps an absent payload (`none`, not an empty byte
sequence), and a page with a positive address gets exactly the
length-prefixed block stored at that address: `block_length` bytes after
the 4-byte prefix whenever the file holds them. -/
theorem C8_load_notebook (f : File) (md : SupernoteMetadata)
    (nb : List (Option (List Nat))) (h : load_notebook f md = .ok nb) :
    nb.length = get_total_pages md
    ∧ nb.length = md.pages.length
    ∧ (∀ f' nb', load_notebook f' md = .ok nb' → nb'.length = nb.length)
    ∧ (∀ i a, get_bitmap_address md i = .ok a →
        (a = 0 → nb[i]? = some none)
        ∧ (0 < a → nb[i]? = some (some (read_block f a.toNat))))
    ∧ (∀ addr blockLen : Nat, 0 < addr →
        blockLen = leNat (readAt f addr LENGTH_FIELD_SIZE) →
        addr + LENGTH_FIELD_SIZE + blockLen ≤ f.length →
        read_block f addr = (f.drop (addr + LENGTH_FIELD_SIZE)).take blockLen
        ∧ (read_block f addr).length = blockLen) := by
  unfold load_notebook at h
  have hlen : nb.length = get_total_pages md := by
    rw [mapE_length h, List.length_range]
  refine ⟨hlen, by rw [hlen]; rfl, ?_, ?_, ?_⟩
  · intro f' nb' h'
    unfold load_notebook at h'
    rw [mapE_length h', List.length_range, hlen]
  · intro i a ha
    have hi : i < md.pages.length := gba_ok_lt ha
    have hri : (List.range (get_total_pages md))[i]? = some i := by
      rw [List.getElem?_range]
      exact hi
    obtain ⟨b, hb, hgb⟩ := mapE_getElem? h hri
    rw [ha] at hgb
    have hgb2 : (if a = 0 then (Except.ok none : Except PErr (Option (List Nat)))
        else if a < 0 then .error .ioError
        else .ok (some (read_block f a.toNat))) = .ok b := hgb
    constructor
    · intro h0
      rw [if_pos h0] at hgb2
      simp only [Except.ok.injEq] at hgb2
      rw [hb, hgb2]
    · intro hpos
      rw [if_neg (by omega), if_neg (by omega)] at hgb2
      simp only [Except.ok.injEq] at hgb2
      rw [hb, hgb2]
  · intro addr blockLen haddr hbl hle
    have hlen4 : (readAt f addr LENGTH_FIELD_SIZE).length = LENGTH_FIELD_SIZE := by
      unfold readAt
      rw [List.length_take, List.length_drop]
      unfold LENGTH_FIELD_SIZE at hle ⊢
      omega
    have hrb : read_block f addr = (f.drop (addr + LENGTH_FIELD_SIZE)).take blockLen := by
      unfold read_block
      rw [if_neg (by omega), hlen4, ← hbl]
      rfl
    refine ⟨hrb, ?_⟩
    rw [hrb, List.length_take, List.length_drop]
    omega

theorem C8_load_notebook_witness :
    ([some [1, 2, 3, 4, 5, 6, 7, 8, 9, 10]] : List (Option (List Nat))).length =
      get_total_pages ⟨"SN_FILE_ASA_20190529", [("FILE_TYPE", PVal.str "NOTE")],
        [("PAGE", PVal.str "54")], [[("DATA", PVal.str "40")]]⟩
    ∧ ([some [1, 2, 3, 4, 5, 6, 7, 8, 9, 10]] : List (Option (List Nat)))[0]? =
        some (some (read_block baseFile2 (Int.toNat 40))) :=
  ⟨(C8_load_notebook baseFile2
      ⟨"SN_FILE_ASA_20190529", [("FILE_TYPE", PVal.str "NOTE")],
       [("PAGE", PVal.str "54")], [[("DATA", PVal.str "40")]]⟩
      [some [1, 2, 3, 4, 5, 6, 7, 8, 9, 10]] (by rfl)).1,
   ((C8_load_notebook baseFile2
      ⟨"SN_FILE_ASA_20190529", [("FILE_TYPE", PVal.str "NOTE")],
       [("PAGE", PVal.str "54")], [[("DATA", PVal.str "40")]]⟩
      [some [1, 2, 3, 4, 5, 6, 7, 8, 9, 10]] (by rfl)).2.2.2.1 0 40 (by rfl)).2 (by decide)⟩

end Supernote
